import Mathlib

/-!
# Verification of the `sbx` sandbox core

Shallow embedding of the `bux` micro-VM sandbox core, translated from the
Rust sources:

* `bux-proto/src/codec.rs`, `bux-proto/src/message.rs` — length-prefixed
  postcard wire codec and the `Request`/`Response` message schema;
* `bux-oci/src/store.rs`, `bux-oci/src/lib.rs` — content-addressed OCI
  image store (SQLite tables modelled as association lists, the on-disk
  blob / rootfs trees as sets of present paths);
* `bux-guest/src/main.rs` — the guest agent's session dispatcher and
  exec multiplexing loop (cooperative interleavings modelled by an
  explicit event schedule);
* `bux/src/client.rs` — the host client's `exec_stream` loop;
* `bux-e2fs/src/ext4.rs` — the ext4 image size estimator.

Machine integers are modelled as `Nat`/`Int`; the programs in question
never rely on wrap-around (lengths fit in `u32`/`u64`, and the codec
checks `u32::try_from` explicitly, which is modelled as an explicit
bound check).
-/

namespace BuxProto

/-- One byte on the wire (`u8`), modelled as `Nat`; encoders only ever
produce values `< 256`. -/
abbrev Byte := Nat

/-- `MAX_FRAME` from `codec.rs`: maximum allowed frame payload (16 MiB). -/
def MAX_FRAME : Nat := 16 * 1024 * 1024

/-- `u32::MAX`, the bound checked by `u32::try_from(payload.len())` in
`codec.rs::send`. -/
def U32_MAX : Nat := 2 ^ 32 - 1

/-- Structural worker for [`varintEncode`]; `fuel ≥ n` suffices because
the quotient shrinks at every step. -/
def varintGo : Nat → Nat → List Byte
  | 0, n => [n % 128]
  | fuel + 1, n =>
      if n < 128 then [n] else (n % 128 + 128) :: varintGo fuel (n / 128)

/-- Postcard varint (LEB128) encoding of an unsigned integer: low seven
bits first, high bit of each byte set on all but the last byte. -/
def varintEncode (n : Nat) : List Byte :=
  varintGo n n

/-- Fuel irrelevance for [`varintGo`]: any fuel at least `n` computes the
same list. -/
theorem varintGo_fuel (fuel fuel' n : Nat) (h : n ≤ fuel) (h' : n ≤ fuel') :
    varintGo fuel n = varintGo fuel' n := by
  induction fuel using Nat.strong_induction_on generalizing fuel' n with
  | _ fuel ih =>
    match fuel, fuel' with
    | 0, 0 => rfl
    | 0, f' + 1 =>
        have : n = 0 := by omega
        subst this
        rfl
    | f + 1, 0 =>
        have : n = 0 := by omega
        subst this
        rfl
    | f + 1, f' + 1 =>
        simp only [varintGo]
        by_cases hn : n < 128
        · simp [hn]
        · rw [if_neg hn, if_neg hn]
          have hdiv : n / 128 < n :=
            Nat.div_lt_self (Nat.pos_of_ne_zero (by omega)) (by omega)
          rw [ih f (by omega) f' (n / 128) (by omega) (by omega)]

/-- The defining recurrence of [`varintEncode`], as in the source. -/
theorem varintEncode_unfold (n : Nat) :
    varintEncode n = if n < 128 then [n] else (n % 128 + 128) :: varintEncode (n / 128) := by
  by_cases h : n < 128
  · rw [if_pos h, varintEncode]
    match n, h with
    | 0, _ => rfl
    | m + 1, h => simp [varintGo, h]
  · rw [if_neg h, varintEncode, varintEncode]
    have hdiv : n / 128 < n :=
      Nat.div_lt_self (Nat.pos_of_ne_zero (by omega)) (by omega)
    match n, h, hdiv with
    | m + 1, h, hdiv =>
      simp only [varintGo, if_neg h]
      rw [varintGo_fuel m ((m + 1) / 128) ((m + 1) / 128) (by omega) (le_refl _)]

/-- Postcard varint decoding; returns the value and the remaining bytes. -/
def varintDecode : List Byte → Option (Nat × List Byte)
  | [] => none
  | b :: rest =>
    if b < 128 then some (b, rest)
    else
      match varintDecode rest with
      | some (n, r) => some (n * 128 + (b - 128), r)
      | none => none

/-- Zigzag encoding of a signed integer (postcard's `i32` representation):
`0, -1, 1, -2, 2, …` map to `0, 1, 2, 3, 4, …`. -/
def zigzag (n : Int) : Nat :=
  if 0 ≤ n then 2 * n.toNat else 2 * (-n).toNat - 1

/-- Inverse of [`zigzag`]. -/
def unzigzag (z : Nat) : Int :=
  if z % 2 = 0 then (z / 2 : Nat) else -((z / 2 : Nat) + 1)

theorem unzigzag_zigzag (n : Int) : unzigzag (zigzag n) = n := by
  rcases le_or_lt 0 n with h | h
  · rw [zigzag, if_pos h, unzigzag, if_pos (by omega)]
    omega
  · have hn : 1 ≤ (-n).toNat := by omega
    rw [zigzag, if_neg (by omega), unzigzag, if_neg (by omega)]
    omega

theorem varintDecode_encode (n : Nat) (rest : List Byte) :
    varintDecode (varintEncode n ++ rest) = some (n, rest) := by
  induction n using Nat.strong_induction_on with
  | _ n ih =>
    rw [varintEncode_unfold]
    by_cases h : n < 128
    · simp [h, varintDecode]
    · rw [if_neg h]
      have hdiv : n / 128 < n :=
        Nat.div_lt_self (Nat.pos_of_ne_zero (by omega)) (by omega)
      simp only [List.cons_append, varintDecode, if_neg (by omega : ¬ n % 128 + 128 < 128)]
      rw [show (varintEncode (n / 128)).append rest = varintEncode (n / 128) ++ rest from rfl]
      rw [ih (n / 128) hdiv]
      simp only [Option.some.injEq, Prod.mk.injEq, eq_self_iff_true, and_true]
      omega

theorem varintEncode_len_pos (n : Nat) : 0 < (varintEncode n).length := by
  rw [varintEncode_unfold]
  by_cases h : n < 128 <;> simp [h]

/-! ## Message schema (`bux-proto/src/message.rs`)

Rust `String`s are modelled by their UTF-8 byte contents (`List Byte`),
which is exactly what postcard serializes (varint length + bytes). -/

/-- UTF-8 contents of a Rust `String`. -/
abbrev Str := List Byte

/-- `ExecReq` from `message.rs`: command execution request. -/
structure ExecReq where
  /-- Executable path or name. -/
  cmd : Str
  /-- Command-line arguments (excluding argv[0]). -/
  args : List Str
  /-- Environment variables in `KEY=VALUE` format. -/
  env : List Str
  /-- Working directory inside the guest. -/
  cwd : Option Str
  /-- Override UID for this execution (`Option<u32>`). -/
  uid : Option Nat
  /-- Override GID for this execution (`Option<u32>`). -/
  gid : Option Nat
  /-- Whether the host will send stdin data. -/
  stdin : Bool
deriving DecidableEq

/-- `Request` from `message.rs`: request sent from host to guest.
Constructors appear in declaration order, which fixes the postcard
variant indices. -/
inductive Request where
  /-- Execute a command inside the guest. -/
  | Exec (req : ExecReq)
  /-- Write data to a running process's stdin. -/
  | Stdin (pid : Nat) (data : List Byte)
  /-- Close a running process's stdin (sends EOF). -/
  | StdinClose (pid : Nat)
  /-- Send a POSIX signal to a running process (`signal : i32`). -/
  | Signal (pid : Nat) (signal : Int)
  /-- Read a single file from the guest filesystem. -/
  | ReadFile (path : Str)
  /-- Write a single file to the guest filesystem (`mode : u32`). -/
  | WriteFile (path : Str) (data : List Byte) (mode : Nat)
  /-- Copy a tar archive into the guest, unpacking at `dest`. -/
  | CopyIn (dest : Str) (tar : List Byte)
  /-- Copy a path from the guest as a tar archive. -/
  | CopyOut (path : Str)
  /-- Health-check ping. -/
  | Ping
  /-- Request graceful shutdown of the guest agent. -/
  | Shutdown
deriving DecidableEq

/-- `Response` from `message.rs`: response sent from guest to host. -/
inductive Response where
  /-- Process started with the given PID. -/
  | Started (pid : Nat)
  /-- A chunk of stdout data. -/
  | Stdout (data : List Byte)
  /-- A chunk of stderr data. -/
  | Stderr (data : List Byte)
  /-- Process exited with the given code (`-1` if killed by signal). -/
  | Exit (code : Int)
  /-- An error occurred while handling the request. -/
  | Error (msg : Str)
  /-- Reply to `Request::Ping`. -/
  | Pong
  /-- File contents returned for `Request::ReadFile`. -/
  | FileData (data : List Byte)
  /-- Tar archive returned for `Request::CopyOut`. -/
  | TarData (data : List Byte)
  /-- Generic success acknowledgment. -/
  | Ok
deriving DecidableEq

/-! ## Postcard serialization of the schema

Postcard encodes: enum variants as a varint discriminant followed by the
fields in order; `u32` as varint; `i32` as zigzag varint; `bool` as one
byte `0`/`1`; `Option` as a `0`/`1` tag byte; `String` and `Vec<u8>` as a
varint length followed by the raw bytes; `Vec<String>` as a varint count
followed by the elements. -/

/-- Serialize a `String` / `Vec<u8>`: varint length, then the bytes. -/
def serBytes (s : List Byte) : List Byte :=
  varintEncode s.length ++ s

/-- Serialize a `bool` as a single byte. -/
def serBool (b : Bool) : List Byte :=
  [if b then 1 else 0]

/-- Serialize an `Option` with a tag byte. -/
def serOption (f : α → List Byte) : Option α → List Byte
  | none => [0]
  | some x => 1 :: f x

/-- Serialize a `Vec<String>`: varint count, then the elements. -/
def serSeq (l : List Str) : List Byte :=
  varintEncode l.length ++ (l.map serBytes).flatten

/-- Serialize an `i32` as a zigzag varint. -/
def serI32 (n : Int) : List Byte :=
  varintEncode (zigzag n)

/-- Serialize an `ExecReq`: fields in declaration order. -/
def serExecReq (e : ExecReq) : List Byte :=
  serBytes e.cmd ++ serSeq e.args ++ serSeq e.env ++
    serOption serBytes e.cwd ++ serOption varintEncode e.uid ++
    serOption varintEncode e.gid ++ serBool e.stdin

/-- Serialize a `Request`: varint discriminant, then the fields. -/
def serRequest : Request → List Byte
  | .Exec e => 0 :: serExecReq e
  | .Stdin pid data => 1 :: varintEncode pid ++ serBytes data
  | .StdinClose pid => 2 :: varintEncode pid
  | .Signal pid signal => 3 :: varintEncode pid ++ serI32 signal
  | .ReadFile path => 4 :: serBytes path
  | .WriteFile path data mode =>
      5 :: serBytes path ++ serBytes data ++ varintEncode mode
  | .CopyIn dest tar => 6 :: serBytes dest ++ serBytes tar
  | .CopyOut path => 7 :: serBytes path
  | .Ping => [8]
  | .Shutdown => [9]

/-- Serialize a `Response`: varint discriminant, then the fields. -/
def serResponse : Response → List Byte
  | .Started pid => 0 :: varintEncode pid
  | .Stdout data => 1 :: serBytes data
  | .Stderr data => 2 :: serBytes data
  | .Exit code => 3 :: serI32 code
  | .Error msg => 4 :: serBytes msg
  | .Pong => [5]
  | .FileData data => 6 :: serBytes data
  | .TarData data => 7 :: serBytes data
  | .Ok => [8]

/-! ## Postcard deserialization

Each parser consumes a prefix of the input and returns the parsed value
together with the remaining bytes, or `none` on malformed input
(postcard's deserialization error). -/

/-- Parse a `String` / `Vec<u8>`: varint length, then that many bytes. -/
def parseBytes (input : List Byte) : Option (List Byte × List Byte) :=
  match varintDecode input with
  | some (len, rest) =>
      if len ≤ rest.length then some (rest.take len, rest.drop len) else none
  | none => none

/-- Parse a `bool` byte (postcard rejects values other than `0`/`1`). -/
def parseBool : List Byte → Option (Bool × List Byte)
  | 0 :: rest => some (false, rest)
  | 1 :: rest => some (true, rest)
  | _ => none

/-- Parse an `Option` tag byte followed by the payload when present. -/
def parseOption (f : List Byte → Option (α × List Byte)) :
    List Byte → Option (Option α × List Byte)
  | 0 :: rest => some (none, rest)
  | 1 :: rest =>
      match f rest with
      | some (x, r) => some (some x, r)
      | none => none
  | _ => none

/-- Parse `count` consecutive `String`s. -/
def parseSeqN : Nat → List Byte → Option (List Str × List Byte)
  | 0, input => some ([], input)
  | n + 1, input =>
      match parseBytes input with
      | some (s, rest) =>
          match parseSeqN n rest with
          | some (l, r) => some (s :: l, r)
          | none => none
      | none => none

/-- Parse a `Vec<String>`: varint count, then the elements. -/
def parseSeq (input : List Byte) : Option (List Str × List Byte) :=
  match varintDecode input with
  | some (n, rest) => parseSeqN n rest
  | none => none

/-- Parse an `i32`: zigzag varint. -/
def parseI32 (input : List Byte) : Option (Int × List Byte) :=
  match varintDecode input with
  | some (z, rest) => some (unzigzag z, rest)
  | none => none

/-- Parse an `ExecReq`: fields in declaration order. -/
def parseExecReq (input : List Byte) : Option (ExecReq × List Byte) :=
  match parseBytes input with
  | some (cmd, r1) =>
    match parseSeq r1 with
    | some (args, r2) =>
      match parseSeq r2 with
      | some (env, r3) =>
        match parseOption parseBytes r3 with
        | some (cwd, r4) =>
          match parseOption varintDecode r4 with
          | some (uid, r5) =>
            match parseOption varintDecode r5 with
            | some (gid, r6) =>
              match parseBool r6 with
              | some (stdin, r7) =>
                  some (⟨cmd, args, env, cwd, uid, gid, stdin⟩, r7)
              | none => none
            | none => none
          | none => none
        | none => none
      | none => none
    | none => none
  | none => none

/-- Parse a `Request`: varint discriminant, then the fields. -/
def parseRequest (input : List Byte) : Option (Request × List Byte) :=
  match varintDecode input with
  | some (0, r) =>
      match parseExecReq r with
      | some (e, rest) => some (.Exec e, rest)
      | none => none
  | some (1, r) =>
      match varintDecode r with
      | some (pid, r1) =>
          match parseBytes r1 with
          | some (data, rest) => some (.Stdin pid data, rest)
          | none => none
      | none => none
  | some (2, r) =>
      match varintDecode r with
      | some (pid, rest) => some (.StdinClose pid, rest)
      | none => none
  | some (3, r) =>
      match varintDecode r with
      | some (pid, r1) =>
          match parseI32 r1 with
          | some (signal, rest) => some (.Signal pid signal, rest)
          | none => none
      | none => none
  | some (4, r) =>
      match parseBytes r with
      | some (path, rest) => some (.ReadFile path, rest)
      | none => none
  | some (5, r) =>
      match parseBytes r with
      | some (path, r1) =>
          match parseBytes r1 with
          | some (data, r2) =>
              match varintDecode r2 with
              | some (mode, rest) => some (.WriteFile path data mode, rest)
              | none => none
          | none => none
      | none => none
  | some (6, r) =>
      match parseBytes r with
      | some (dest, r1) =>
          match parseBytes r1 with
          | some (tar, rest) => some (.CopyIn dest tar, rest)
          | none => none
      | none => none
  | some (7, r) =>
      match parseBytes r with
      | some (path, rest) => some (.CopyOut path, rest)
      | none => none
  | some (8, r) => some (.Ping, r)
  | some (9, r) => some (.Shutdown, r)
  | _ => none

/-- Parse a `Response`: varint discriminant, then the fields. -/
def parseResponse (input : List Byte) : Option (Response × List Byte) :=
  match varintDecode input with
  | some (0, r) =>
      match varintDecode r with
      | some (pid, rest) => some (.Started pid, rest)
      | none => none
  | some (1, r) =>
      match parseBytes r with
      | some (data, rest) => some (.Stdout data, rest)
      | none => none
  | some (2, r) =>
      match parseBytes r with
      | some (data, rest) => some (.Stderr data, rest)
      | none => none
  | some (3, r) =>
      match parseI32 r with
      | some (code, rest) => some (.Exit code, rest)
      | none => none
  | some (4, r) =>
      match parseBytes r with
      | some (msg, rest) => some (.Error msg, rest)
      | none => none
  | some (5, r) => some (.Pong, r)
  | some (6, r) =>
      match parseBytes r with
      | some (data, rest) => some (.FileData data, rest)
      | none => none
  | some (7, r) =>
      match parseBytes r with
      | some (data, rest) => some (.TarData data, rest)
      | none => none
  | some (8, r) => some (.Ok, r)
  | _ => none

/-! ## Parser/serializer roundtrips -/

theorem parseBytes_ser (s : List Byte) (rest : List Byte) :
    parseBytes (serBytes s ++ rest) = some (s, rest) := by
  rw [parseBytes, serBytes, List.append_assoc, varintDecode_encode]
  simp [List.take_left, List.drop_left]

theorem parseBool_ser (b : Bool) (rest : List Byte) :
    parseBool (serBool b ++ rest) = some (b, rest) := by
  cases b <;> rfl

theorem parseOption_ser (f : α → List Byte)
    (p : List Byte → Option (α × List Byte))
    (hf : ∀ x r, p (f x ++ r) = some (x, r)) (o : Option α)
    (rest : List Byte) : parseOption p (serOption f o ++ rest) = some (o, rest) := by
  cases o with
  | none => rfl
  | some x => simp [serOption, parseOption, hf]

theorem parseSeqN_ser (l : List Str) (rest : List Byte) :
    parseSeqN l.length ((l.map serBytes).flatten ++ rest) = some (l, rest) := by
  induction l with
  | nil => rfl
  | cons s tl ih =>
      simp only [List.map_cons, List.flatten_cons, List.length_cons,
        List.append_assoc, parseSeqN, parseBytes_ser, ih]

theorem parseSeq_ser (l : List Str) (rest : List Byte) :
    parseSeq (serSeq l ++ rest) = some (l, rest) := by
  rw [parseSeq, serSeq, List.append_assoc, varintDecode_encode]
  exact parseSeqN_ser l rest

theorem parseI32_ser (n : Int) (rest : List Byte) :
    parseI32 (serI32 n ++ rest) = some (n, rest) := by
  rw [parseI32, serI32, varintDecode_encode]
  simp [unzigzag_zigzag]

theorem parseExecReq_ser (e : ExecReq) (rest : List Byte) :
    parseExecReq (serExecReq e ++ rest) = some (e, rest) := by
  obtain ⟨cmd, args, env, cwd, uid, gid, stdin⟩ := e
  rw [parseExecReq, serExecReq]
  simp only [List.append_assoc, parseBytes_ser, parseSeq_ser,
    parseOption_ser serBytes parseBytes parseBytes_ser,
    parseOption_ser varintEncode varintDecode varintDecode_encode,
    parseBool_ser]

theorem parseRequest_ser (m : Request) (rest : List Byte) :
    parseRequest (serRequest m ++ rest) = some (m, rest) := by
  cases m with
  | Exec e =>
      rw [serRequest, parseRequest]
      simp only [List.cons_append, show varintDecode (0 :: (serExecReq e ++ rest)) =
        some (0, serExecReq e ++ rest) from rfl, parseExecReq_ser]
  | Stdin pid data =>
      rw [serRequest]
      simp only [List.cons_append, List.append_assoc, parseRequest,
        show ∀ l : List Byte, varintDecode (1 :: l) = some (1, l) from fun _ => rfl,
        varintDecode_encode, parseBytes_ser]
  | StdinClose pid =>
      rw [serRequest]
      simp only [List.cons_append, parseRequest,
        show ∀ l : List Byte, varintDecode (2 :: l) = some (2, l) from fun _ => rfl,
        varintDecode_encode]
  | Signal pid signal =>
      rw [serRequest]
      simp only [List.cons_append, List.append_assoc, parseRequest,
        show ∀ l : List Byte, varintDecode (3 :: l) = some (3, l) from fun _ => rfl,
        varintDecode_encode, parseI32_ser]
  | ReadFile path =>
      rw [serRequest]
      simp only [List.cons_append, parseRequest,
        show ∀ l : List Byte, varintDecode (4 :: l) = some (4, l) from fun _ => rfl,
        parseBytes_ser]
  | WriteFile path data mode =>
      rw [serRequest]
      simp only [List.cons_append, List.append_assoc, parseRequest,
        show ∀ l : List Byte, varintDecode (5 :: l) = some (5, l) from fun _ => rfl,
        parseBytes_ser, varintDecode_encode]
  | CopyIn dest tar =>
      rw [serRequest]
      simp only [List.cons_append, List.append_assoc, parseRequest,
        show ∀ l : List Byte, varintDecode (6 :: l) = some (6, l) from fun _ => rfl,
        parseBytes_ser]
  | CopyOut path =>
      rw [serRequest]
      simp only [List.cons_append, parseRequest,
        show ∀ l : List Byte, varintDecode (7 :: l) = some (7, l) from fun _ => rfl,
        parseBytes_ser]
  | Ping => rfl
  | Shutdown => rfl

theorem parseResponse_ser (m : Response) (rest : List Byte) :
    parseResponse (serResponse m ++ rest) = some (m, rest) := by
  cases m with
  | Started pid =>
      rw [serResponse]
      simp only [List.cons_append, parseResponse,
        show ∀ l : List Byte, varintDecode (0 :: l) = some (0, l) from fun _ => rfl,
        varintDecode_encode]
  | Stdout data =>
      rw [serResponse]
      simp only [List.cons_append, parseResponse,
        show ∀ l : List Byte, varintDecode (1 :: l) = some (1, l) from fun _ => rfl,
        parseBytes_ser]
  | Stderr data =>
      rw [serResponse]
      simp only [List.cons_append, parseResponse,
        show ∀ l : List Byte, varintDecode (2 :: l) = some (2, l) from fun _ => rfl,
        parseBytes_ser]
  | Exit code =>
      rw [serResponse]
      simp only [List.cons_append, parseResponse,
        show ∀ l : List Byte, varintDecode (3 :: l) = some (3, l) from fun _ => rfl,
        parseI32_ser]
  | Error msg =>
      rw [serResponse]
      simp only [List.cons_append, parseResponse,
        show ∀ l : List Byte, varintDecode (4 :: l) = some (4, l) from fun _ => rfl,
        parseBytes_ser]
  | Pong => rfl
  | FileData data =>
      rw [serResponse]
      simp only [List.cons_append, parseResponse,
        show ∀ l : List Byte, varintDecode (6 :: l) = some (6, l) from fun _ => rfl,
        parseBytes_ser]
  | TarData data =>
      rw [serResponse]
      simp only [List.cons_append, parseResponse,
        show ∀ l : List Byte, varintDecode (7 :: l) = some (7, l) from fun _ => rfl,
        parseBytes_ser]
  | Ok => rfl

/-! ## Frame codec (`bux-proto/src/codec.rs`)

`send` serializes the message, length-checks it against `u32`, and
prepends the 4-byte big-endian length. `recv` models reading from an
async stream that delivers the bytes of `input` and then EOF: a
`read_exact` for more bytes than remain fails with `UnexpectedEof`. -/

/-- `std::io::ErrorKind` values produced by the codec. -/
inductive IoErrKind where
  /-- `ErrorKind::UnexpectedEof` (short read). -/
  | unexpectedEof
  /-- `ErrorKind::InvalidData` (oversized frame / malformed payload). -/
  | invalidData
deriving DecidableEq

deriving instance DecidableEq for Except

/-- Big-endian 4-byte encoding of a length that fits in `u32`. -/
def be32 (n : Nat) : List Byte :=
  [n / 2 ^ 24 % 256, n / 2 ^ 16 % 256, n / 2 ^ 8 % 256, n % 256]

/-- Value of a 4-byte big-endian header (`u32::from_be_bytes`). -/
def beVal (b0 b1 b2 b3 : Byte) : Nat :=
  ((b0 * 256 + b1) * 256 + b2) * 256 + b3

theorem beVal_be32 (n : Nat) (h : n < 2 ^ 32) :
    beVal (n / 2 ^ 24 % 256) (n / 2 ^ 16 % 256) (n / 2 ^ 8 % 256) (n % 256) = n := by
  rw [beVal]
  omega

/-- `codec.rs::send`, given an already-serialized payload: fails with
`InvalidData` when the payload exceeds `u32::MAX`, otherwise emits the
4-byte big-endian header followed by the payload. -/
def sendFrame (payload : List Byte) : Except IoErrKind (List Byte) :=
  if payload.length > U32_MAX then .error .invalidData
  else .ok (be32 payload.length ++ payload)

/-- `codec.rs::recv`, generic in the payload parser: read 4 header bytes
(else `UnexpectedEof`), reject lengths over `MAX_FRAME` with
`InvalidData` before reading any payload, read exactly `len` payload
bytes (else `UnexpectedEof`), then deserialize (`postcard::from_bytes`
discards any unused trailing payload bytes). -/
def recvFrame (parse : List Byte → Option (α × List Byte))
    (input : List Byte) : Except IoErrKind α :=
  match input with
  | b0 :: b1 :: b2 :: b3 :: rest =>
      let len := beVal b0 b1 b2 b3
      if len > MAX_FRAME then .error .invalidData
      else if rest.length < len then .error .unexpectedEof
      else
        match parse (rest.take len) with
        | some (v, _) => .ok v
        | none => .error .invalidData
  | _ => .error .unexpectedEof

/-- `recv ∘ send` for a `Request` (`codec.rs` used on the host→guest
direction). -/
def roundtripRequest (m : Request) : Except IoErrKind Request :=
  match sendFrame (serRequest m) with
  | .ok bytes => recvFrame parseRequest bytes
  | .error e => .error e

/-- `recv ∘ send` for a `Response` (guest→host direction). -/
def roundtripResponse (m : Response) : Except IoErrKind Response :=
  match sendFrame (serResponse m) with
  | .ok bytes => recvFrame parseResponse bytes
  | .error e => .error e

/-- Successful `recv` of a well-formed frame whose payload parses back. -/
theorem recvFrame_sendFrame (parse : List Byte → Option (α × List Byte))
    (payload : List Byte)
    (hparse : ∀ rest, parse (payload ++ rest) = some (v, rest))
    (hlen : payload.length ≤ MAX_FRAME) :
    recvFrame parse (be32 payload.length ++ payload) = .ok v := by
  have hlt : payload.length < 2 ^ 32 := by
    have : MAX_FRAME < 2 ^ 32 := by norm_num [MAX_FRAME]
    omega
  rw [be32]
  simp only [List.cons_append, List.nil_append, recvFrame]
  rw [show beVal (payload.length / 2 ^ 24 % 256) (payload.length / 2 ^ 16 % 256)
        (payload.length / 2 ^ 8 % 256) (payload.length % 256) = payload.length from
      beVal_be32 _ hlt]
  rw [if_neg (by omega), if_neg (by omega), List.take_of_length_le (le_refl _)]
  have := hparse []
  rw [List.append_nil] at this
  rw [this]

/-- `send` of a payload that fits in `u32` emits header + payload. -/
theorem sendFrame_ok (payload : List Byte) (h : payload.length ≤ U32_MAX) :
    sendFrame payload = .ok (be32 payload.length ++ payload) := by
  rw [sendFrame, if_neg (by omega)]

/-- `recv` rejects any frame whose header exceeds `MAX_FRAME`. -/
theorem recvFrame_oversize (parse : List Byte → Option (α × List Byte))
    (n : Nat) (hlo : MAX_FRAME < n) (hhi : n < 2 ^ 32) (rest : List Byte) :
    recvFrame parse (be32 n ++ rest) = .error .invalidData := by
  rw [be32]
  simp only [List.cons_append, List.nil_append, recvFrame]
  rw [show beVal (n / 2 ^ 24 % 256) (n / 2 ^ 16 % 256) (n / 2 ^ 8 % 256) (n % 256) = n from
      beVal_be32 n hhi]
  rw [if_pos (by omega)]

/-- Serialized size of a stdout chunk: one discriminant byte, the varint
length, then the raw bytes. -/
theorem serResponse_stdout_length (data : List Byte) :
    (serResponse (.Stdout data)).length =
      1 + (varintEncode data.length).length + data.length := by
  simp [serResponse, serBytes]
  omega

/--
C4 (counterexample): the round-trip `recv(send(m)) = m` fails for the
concrete message `Response::Stdout` carrying `MAX_FRAME` bytes — `send`
succeeds (the frame fits in `u32`) but `recv` rejects the 16 MiB + 5
byte payload with `InvalidData`.
-/
theorem C4_counterexample :
    roundtripResponse (.Stdout (List.replicate MAX_FRAME 0)) = .error .invalidData ∧
    roundtripResponse (.Stdout (List.replicate MAX_FRAME 0)) ≠
      .ok (.Stdout (List.replicate MAX_FRAME 0)) := by
  have hlen : (serResponse (.Stdout (List.replicate MAX_FRAME 0))).length =
      16777221 := by
    rw [serResponse_stdout_length, List.length_replicate,
      show (varintEncode MAX_FRAME).length = 4 from by decide]
    norm_num [MAX_FRAME]
  have h : roundtripResponse (.Stdout (List.replicate MAX_FRAME 0)) =
      .error .invalidData := by
    rw [roundtripResponse, sendFrame_ok _ (by rw [hlen]; norm_num [U32_MAX]), hlen]
    exact recvFrame_oversize parseResponse 16777221 (by norm_num [MAX_FRAME])
      (by norm_num) _
  exact ⟨h, by rw [h]; intro hc; exact Except.noConfusion hc⟩

/--
C4 (amended): for every `Request` and every `Response` whose postcard
payload does not exceed `MAX_FRAME` (16 MiB), sending the message
through the codec and receiving it yields the message unchanged:
`recv(send(m)) = m`.
-/
theorem C4_codec_roundtrip :
    (∀ m : Request, (serRequest m).length ≤ MAX_FRAME →
       roundtripRequest m = .ok m) ∧
    (∀ m : Response, (serResponse m).length ≤ MAX_FRAME →
       roundtripResponse m = .ok m) := by
  have hmax : MAX_FRAME ≤ U32_MAX := by norm_num [MAX_FRAME, U32_MAX]
  constructor
  · intro m h
    rw [roundtripRequest, sendFrame_ok _ (le_trans h hmax)]
    exact recvFrame_sendFrame parseRequest (serRequest m)
      (parseRequest_ser m) h
  · intro m h
    rw [roundtripResponse, sendFrame_ok _ (le_trans h hmax)]
    exact recvFrame_sendFrame parseResponse (serResponse m)
      (parseResponse_ser m) h

/-- Witness for C4: concrete round-trips through the codec. -/
theorem C4_codec_roundtrip_witness :
    roundtripRequest (.Stdin 7 [1, 2, 3]) = .ok (.Stdin 7 [1, 2, 3]) ∧
    roundtripResponse (.Exit (-1)) = .ok (.Exit (-1)) :=
  ⟨C4_codec_roundtrip.1 (.Stdin 7 [1, 2, 3]) (by decide),
   C4_codec_roundtrip.2 (.Exit (-1)) (by decide)⟩

/--
C5: `recv` fails with `InvalidData` whenever the 4-byte big-endian
length prefix exceeds 16 MiB, regardless of what (if anything) follows
the header — the payload is never read; and `recv` fails with
`UnexpectedEof` when the stream ends before the 4-byte header is
complete, or before the full `len`-byte payload has been read.
-/
theorem C5_recv_errors :
    (∀ (b0 b1 b2 b3 : Byte) (rest : List Byte),
       MAX_FRAME < beVal b0 b1 b2 b3 →
       recvFrame parseResponse (b0 :: b1 :: b2 :: b3 :: rest) = .error .invalidData) ∧
    (∀ input : List Byte, input.length < 4 →
       recvFrame parseResponse input = .error .unexpectedEof) ∧
    (∀ (b0 b1 b2 b3 : Byte) (rest : List Byte),
       beVal b0 b1 b2 b3 ≤ MAX_FRAME → rest.length < beVal b0 b1 b2 b3 →
       recvFrame parseResponse (b0 :: b1 :: b2 :: b3 :: rest) = .error .unexpectedEof) := by
  refine ⟨fun b0 b1 b2 b3 rest h => ?_, fun input h => ?_, fun b0 b1 b2 b3 rest h1 h2 => ?_⟩
  · simp only [recvFrame]
    rw [if_pos (by omega)]
  · match input with
    | [] => rfl
    | [_] => rfl
    | [_, _] => rfl
    | [_, _, _] => rfl
    | _ :: _ :: _ :: _ :: _ => simp at h; omega
  · simp only [recvFrame]
    rw [if_neg (by omega), if_pos (by omega)]

/-- Witness for C5: an oversized header, a truncated header, and a
truncated payload, each on a concrete input. -/
theorem C5_recv_errors_witness :
    recvFrame parseResponse [255, 255, 255, 255] = .error .invalidData ∧
    recvFrame parseResponse [0, 0] = .error .unexpectedEof ∧
    recvFrame parseResponse [0, 0, 0, 5, 9] = .error .unexpectedEof :=
  ⟨C5_recv_errors.1 255 255 255 255 [] (by decide),
   C5_recv_errors.2.1 [0, 0] (by decide),
   C5_recv_errors.2.2 0 0 0 5 [9] (by decide) (by decide)⟩

end BuxProto

namespace BuxClient

open BuxProto

/-! ## Host client (`bux/src/client.rs`)

`Client::exec_stream` sends `Request::Exec` and then loops on `recv`,
dispatching each incoming `Response`. The receive loop is modelled as a
function of the list of responses the guest writes to the stream, in
order; the stream ending makes the next `recv` fail with
`UnexpectedEof`. -/

/-- `ExecEvent` from `client.rs`: event emitted during streaming command
execution. -/
inductive ExecEvent where
  /-- A chunk of stdout data. -/
  | Stdout (data : List Byte)
  /-- A chunk of stderr data. -/
  | Stderr (data : List Byte)
deriving DecidableEq

/-- Outcome of `Client::exec_stream`'s receive loop (`io::Result<i32>`,
with the error cases it can construct kept apart). -/
inductive ExecStreamResult where
  /-- `Ok(code)` from `Response::Exit(code)`. -/
  | ok (code : Int)
  /-- `io::Error::other(e)` from `Response::Error(e)`. -/
  | errOther (msg : Str)
  /-- `InvalidData("unexpected response")` from any other variant. -/
  | errInvalidData
  /-- `recv` failed with `UnexpectedEof`: the guest closed the stream. -/
  | errEof
deriving DecidableEq

/-- The receive loop of `Client::exec_stream`: the events handed to
`on_event` in order, and the final result. The match arms mirror
`client.rs` lines 83–96: `Stdout`, `Stderr`, `Exit`, `Error`, then a
catch-all returning `InvalidData` — there is no arm for `Started`. -/
def exec_stream : List Response → List ExecEvent × ExecStreamResult
  | [] => ([], .errEof)
  | .Stdout d :: rest =>
      let (evs, res) := exec_stream rest
      (.Stdout d :: evs, res)
  | .Stderr d :: rest =>
      let (evs, res) := exec_stream rest
      (.Stderr d :: evs, res)
  | .Exit code :: _ => ([], .ok code)
  | .Error e :: _ => ([], .errOther e)
  | _ :: _ => ([], .errInvalidData)

/--
C2 (the code evaluated at the failing input): the guest answers an exec
of a successfully spawned child with `Started{pid}` first (per the
protocol in `message.rs` and `exec_cmd` in the guest agent), but
`exec_stream` has no match arm for `Started`, so it returns the
`InvalidData` "unexpected response" error on the very first frame —
instead of the exit code the claim (and the protocol documentation)
promise. Shown on the stream `Started{42}, Stdout "hi", Exit 0`, where
the claim demands `on_event` once and `Ok(0)`; the `Error` path, by
contrast, behaves as specified.
-/
theorem C2_exec_stream_bug :
    exec_stream [.Started 42, .Stdout [104, 105], .Exit 0] = ([], .errInvalidData) ∧
    exec_stream [.Error [98, 97, 100]] = ([], .errOther [98, 97, 100]) := by
  exact ⟨rfl, rfl⟩

end BuxClient

namespace BuxGuest

open BuxProto

/-! ## Guest agent (`bux-guest/src/main.rs`)

`exec_cmd` multiplexes one child process over the connection with a
`tokio::select!` loop. The cooperative interleaving is modelled by an
explicit schedule: a list of select-branch firings. A firing of a
branch whose guard is disabled, or a schedule that ends before both
output streams reach EOF (the real loop would block), yields `none`. -/

/-- One firing of a branch of the `select!` loop in `exec_cmd`. -/
inductive ExecEv where
  /-- The host-request branch fired with `Ok(req)` (guard:
  `child_stdin.is_some()`). -/
  | host (req : Request)
  /-- The host-request branch fired with a `recv` error, which the
  catch-all arm ignores. -/
  | hostErr
  /-- `stdout.read` returned `Ok(n)` with `n > 0` (guard: `!stdout_done`);
  `data` is the `n` bytes read. -/
  | outChunk (data : List Byte)
  /-- `stdout.read` returned `Ok(0)` or `Err(_)`. -/
  | outEof
  /-- `stderr.read` returned `Ok(n)` with `n > 0` (guard: `!stderr_done`). -/
  | errChunk (data : List Byte)
  /-- `stderr.read` returned `Ok(0)` or `Err(_)`. -/
  | errEof
deriving DecidableEq

/-- The multiplexing loop of `exec_cmd`: given whether the child's stdin
pipe is still held, the two `done` flags and the schedule, returns the
`Stdout`/`Stderr` responses sent, or `none` for an impossible or
incomplete (forever-blocking) schedule. -/
def execLoop : List ExecEv → Bool → Bool → Bool → Option (List Response)
  | [], _, stdoutDone, stderrDone =>
      if stdoutDone && stderrDone then some [] else none
  | ev :: rest, stdinOpen, stdoutDone, stderrDone =>
      if stdoutDone && stderrDone then some []
      else
        match ev with
        | .host req =>
            if stdinOpen then
              match req with
              | .Stdin _ _ => execLoop rest stdinOpen stdoutDone stderrDone
              | .StdinClose _ => execLoop rest false stdoutDone stderrDone
              | .Signal _ _ => execLoop rest stdinOpen stdoutDone stderrDone
              | _ => execLoop rest stdinOpen stdoutDone stderrDone
            else none
        | .hostErr =>
            if stdinOpen then execLoop rest stdinOpen stdoutDone stderrDone
            else none
        | .outChunk data =>
            if stdoutDone = false ∧ data ≠ [] then
              (execLoop rest stdinOpen stdoutDone stderrDone).map
                (Response.Stdout data :: ·)
            else none
        | .outEof =>
            if stdoutDone = false then execLoop rest stdinOpen true stderrDone
            else none
        | .errChunk data =>
            if stderrDone = false ∧ data ≠ [] then
              (execLoop rest stdinOpen stdoutDone stderrDone).map
                (Response.Stderr data :: ·)
            else none
        | .errEof =>
            if stderrDone = false then execLoop rest stdinOpen stdoutDone true
            else none

/-- `exec_cmd`: on spawn failure, send `Error(msg)` and return (the
connection stays open); on success send `Started{pid}`, run the
multiplexing loop with the stdin pipe present iff `req.stdin`, then wait
for the child and send `Exit(code)`, where a child killed by a signal
has no exit code and yields `-1` (`status.code().unwrap_or(-1)`). The
returned flag is `true` iff the handler returns `Ok` so the session
loop keeps serving the connection. -/
def exec_cmd (req : ExecReq) (spawn : Except Str Nat) (sched : List ExecEv)
    (exitCode : Option Int) : Option (List Response × Bool) :=
  match spawn with
  | .error msg => some ([.Error msg], true)
  | .ok pid =>
      match execLoop sched req.stdin false false with
      | some mids => some (.Started pid :: mids ++ [.Exit (exitCode.getD (-1))], true)
      | none => none

/-- A `Stdout` or `Stderr` chunk. -/
def isChunk : Response → Prop
  | .Stdout _ => True
  | .Stderr _ => True
  | _ => False

instance (r : Response) : Decidable (isChunk r) := by
  cases r <;> simp only [isChunk] <;> infer_instance

theorem execLoop_chunks (evs : List ExecEv) :
    ∀ (si sd ed : Bool) (ms : List Response),
      execLoop evs si sd ed = some ms → ∀ r ∈ ms, isChunk r := by
  induction evs with
  | nil =>
      intro si sd ed ms h r hr
      rw [execLoop] at h
      by_cases hd : sd && ed
      · rw [if_pos hd] at h
        cases h
        simp at hr
      · rw [if_neg hd] at h
        cases h
  | cons ev rest ih =>
      intro si sd ed ms h r hr
      rw [execLoop.eq_def] at h
      simp only at h
      by_cases hd : sd && ed
      · rw [if_pos hd] at h
        cases h
        simp at hr
      · rw [if_neg hd] at h
        cases ev with
        | host req =>
            by_cases hs : si
            · simp only [hs, if_true] at h
              cases req <;> exact ih _ _ _ _ h r hr
            · simp [hs] at h
        | hostErr =>
            by_cases hs : si
            · simp only [hs, if_true] at h
              exact ih _ _ _ _ h r hr
            · simp [hs] at h
        | outChunk data =>
            replace h : (if sd = false ∧ data ≠ [] then
                (execLoop rest si sd ed).map (Response.Stdout data :: ·)
              else none) = some ms := h
            by_cases hc : sd = false ∧ data ≠ []
            · rw [if_pos hc] at h
              match hrec : execLoop rest si sd ed with
              | some ms' =>
                  rw [hrec] at h
                  simp only [Option.map_some'] at h
                  cases h
                  rcases List.mem_cons.mp hr with h1 | h1
                  · subst h1; trivial
                  · exact ih _ _ _ _ hrec r h1
              | none => rw [hrec] at h; simp at h
            · rw [if_neg hc] at h; cases h
        | outEof =>
            by_cases hc : sd = false
            · rw [if_pos hc] at h
              exact ih _ _ _ _ h r hr
            · rw [if_neg hc] at h; cases h
        | errChunk data =>
            replace h : (if ed = false ∧ data ≠ [] then
                (execLoop rest si sd ed).map (Response.Stderr data :: ·)
              else none) = some ms := h
            by_cases hc : ed = false ∧ data ≠ []
            · rw [if_pos hc] at h
              match hrec : execLoop rest si sd ed with
              | some ms' =>
                  rw [hrec] at h
                  simp only [Option.map_some'] at h
                  cases h
                  rcases List.mem_cons.mp hr with h1 | h1
                  · subst h1; trivial
                  · exact ih _ _ _ _ hrec r h1
              | none => rw [hrec] at h; simp at h
            · rw [if_neg hc] at h; cases h
        | errEof =>
            by_cases hc : ed = false
            · rw [if_pos hc] at h
              exact ih _ _ _ _ h r hr
            · rw [if_neg hc] at h; cases h

/--
C6: for every exec request, spawn outcome, select-loop schedule and
child exit status, if `exec_cmd` completes then the handler leaves the
connection open, and: on spawn failure the response stream is exactly
`[Error msg]`; on spawn success it is exactly one `Started{pid}`,
followed by `Stdout`/`Stderr` chunks only, followed by exactly one
`Exit(code)` as the final frame — so no chunk of this exec follows its
`Exit` — with `code = -1` when the child was killed by a signal (no
exit code).
-/
theorem C6_exec_framing (req : ExecReq) (spawn : Except Str Nat)
    (sched : List ExecEv) (exitCode : Option Int) (resps : List Response)
    (stayOpen : Bool)
    (h : exec_cmd req spawn sched exitCode = some (resps, stayOpen)) :
    stayOpen = true ∧
    ((∃ msg, spawn = .error msg ∧ resps = [.Error msg]) ∨
     (∃ pid mids, spawn = .ok pid ∧
        resps = .Started pid :: mids ++ [.Exit (exitCode.getD (-1))] ∧
        (∀ r ∈ mids, isChunk r) ∧
        (exitCode = none → resps = .Started pid :: mids ++ [.Exit (-1)]))) := by
  cases spawn with
  | error msg =>
      rw [exec_cmd] at h
      cases h
      exact ⟨rfl, .inl ⟨msg, rfl, rfl⟩⟩
  | ok pid =>
      rw [exec_cmd] at h
      match hrec : execLoop sched req.stdin false false with
      | some mids =>
          rw [hrec] at h
          cases h
          refine ⟨rfl, .inr ⟨pid, mids, rfl, rfl, execLoop_chunks sched _ _ _ _ hrec, ?_⟩⟩
          intro hk
          rw [hk]
          rfl
      | none => rw [hrec] at h; cases h

/-- Witness for C6: a concrete exec — spawn succeeds with pid 3, one
stdout chunk, both streams reach EOF, child exits 0. -/
theorem C6_exec_framing_witness :
    true = true ∧
    ((∃ msg, (Except.ok 3 : Except Str Nat) = .error msg ∧
        ([.Started 3, .Stdout [104], .Exit 0] : List Response) = [.Error msg]) ∨
     (∃ pid mids, (Except.ok 3 : Except Str Nat) = .ok pid ∧
        ([.Started 3, .Stdout [104], .Exit 0] : List Response) =
          .Started pid :: mids ++ [.Exit ((some (0 : Int)).getD (-1))] ∧
        (∀ r ∈ mids, isChunk r) ∧
        (some (0 : Int) = none →
          ([.Started 3, .Stdout [104], .Exit 0] : List Response) =
            .Started pid :: mids ++ [.Exit (-1)]))) :=
  C6_exec_framing ⟨[], [], [], none, none, none, false⟩ (.ok 3)
    [.outChunk [104], .outEof, .errEof] (some 0)
    [.Started 3, .Stdout [104], .Exit 0] true (by decide)

/-! ### Session dispatcher (`session` in `main.rs`)

The per-connection loop: receive a request, dispatch, repeat; `recv`
returning `UnexpectedEof` closes the session cleanly. The filesystem and
the exec subsystem are abstracted by an environment of oracles; `Exec`
hands the remaining incoming requests to the exec handler, which
consumes the prefix it reads during multiplexing. -/

/-- Oracles for the effectful handlers dispatched by `session`. Each
returns the guest-side outcome (`Err` carries the message rendered into
`Response::Error`). `execRun` returns the responses written by
`exec_cmd` and the requests left unconsumed on the stream, which is a
suffix of the input (the handler only reads, in order). -/
structure GuestEnv where
  /-- Outcome of `tokio::fs::read` for `ReadFile`. -/
  readFile : Str → Except Str (List Byte)
  /-- Outcome of the create-dirs/write/chmod sequence for `WriteFile`. -/
  writeFile : Str → List Byte → Nat → Except Str Unit
  /-- Outcome of the tar unpack for `CopyIn`. -/
  copyIn : Str → List Byte → Except Str Unit
  /-- Outcome of the tar pack for `CopyOut`. -/
  copyOut : Str → Except Str (List Byte)
  /-- Responses written and requests left unread by `exec_cmd`. -/
  execRun : ExecReq → List Request → List Response × List Request
  /-- `exec_cmd` only consumes incoming requests, never invents them. -/
  execRun_le : ∀ e l, (execRun e l).2.length ≤ l.length

/-- The `session` loop of the guest agent, as a function of the ordered
incoming requests; returns the ordered responses written. An exhausted
input models `recv` failing with `UnexpectedEof` (clean close).
`Shutdown` answers `Ok` and exits the process, abandoning the rest. -/
def session (env : GuestEnv) : List Request → List Response
  | [] => []
  | .Exec e :: rest =>
      let pr := env.execRun e rest
      pr.1 ++ session env pr.2
  | .Signal _ _ :: rest => .Ok :: session env rest
  | .ReadFile path :: rest =>
      (match env.readFile path with
        | .ok data => .FileData data
        | .error e => .Error e) :: session env rest
  | .WriteFile path data mode :: rest =>
      (match env.writeFile path data mode with
        | .ok _ => .Ok
        | .error e => .Error e) :: session env rest
  | .CopyIn dest tar :: rest =>
      (match env.copyIn dest tar with
        | .ok _ => .Ok
        | .error e => .Error e) :: session env rest
  | .CopyOut path :: rest =>
      (match env.copyOut path with
        | .ok data => .TarData data
        | .error e => .Error e) :: session env rest
  | .Ping :: rest => .Pong :: session env rest
  | .Shutdown :: _ => [.Ok]
  | .Stdin _ _ :: rest => .Ok :: session env rest
  | .StdinClose _ :: rest => .Ok :: session env rest
termination_by l => l.length
decreasing_by
  all_goals simp only [List.length_cons]
  · exact Nat.lt_succ_of_le (env.execRun_le e rest)
  all_goals omega

/--
C9: a `Stdin` or `StdinClose` request received by the session loop
outside of an in-progress exec is answered with exactly one
`Response::Ok`, and the session goes on to process the remaining
requests exactly as it would have without the no-op request — for every
environment, so the request touches no oracle (no other effect).
-/
theorem C9_stdin_noop (env : GuestEnv) (pid : Nat) (data : List Byte)
    (rest : List Request) :
    session env (.Stdin pid data :: rest) = .Ok :: session env rest ∧
    session env (.StdinClose pid :: rest) = .Ok :: session env rest := by
  constructor <;> rw [session]

end BuxGuest

namespace BuxE2fs

/-! ## Disk size estimator (`bux-e2fs/src/ext4.rs`)

`estimate_image_size` walks the directory tree with `symlink_metadata`
(the root directory's own inode is not visited — `walk` iterates
`read_dir(dir)`), accumulating `inode_count` and `total_bytes` in
`u64`, then computes `raw = total_bytes + inode_count * 256`,
`sized = raw * 11 / 10 + 64 MiB`, and returns `max(sized, 256 MiB)`.
All of this is `u64` arithmetic, which wraps modulo `2^64` in release
builds, so every addition and multiplication is wrapped in the model.
A directory tree is modelled by mutually inductive entry/listing types
so that all functions are structural. -/

mutual
/-- One directory entry as seen through `symlink_metadata`. -/
inductive FsEntry where
  /-- A regular file with `meta.len()` bytes. -/
  | file (len : Nat)
  /-- A directory and its own entries. -/
  | dir (entries : FsDir)
  /-- A symlink whose target is `targetLen` bytes long (`meta.len()`). -/
  | symlink (targetLen : Nat)
  /-- Any other file type (device, fifo, socket): not a file, directory
  or symlink, so it only counts as an inode. -/
  | other
deriving DecidableEq

/-- A directory listing. -/
inductive FsDir where
  /-- Empty listing. -/
  | nil
  /-- An entry followed by the rest of the listing. -/
  | cons (e : FsEntry) (rest : FsDir)
deriving DecidableEq
end

/-- The modulus of `u64` arithmetic: release builds wrap at `2^64`. -/
def U64_MOD : Nat := 2 ^ 64

/-- Wrapping `u64` addition (release-mode `+`). -/
def wadd (a b : Nat) : Nat := (a + b) % U64_MOD

/-- `(meta.len() + 4095) & !4095` in `u64`: the addition wraps modulo
`2^64`, then `& !4095` clears the low 12 bits — for a value below
`2^64` that is subtracting its remainder mod 4096. -/
def roundUp4k (len : Nat) : Nat :=
  let t := (len + 4095) % U64_MOD
  t - t % 4096

/-- The claim's measuring stick: a length rounded up to the next 4 KiB
boundary, in exact arithmetic. Coincides with [`roundUp4k`] whenever
`len + 4095` fits in `u64`. -/
def roundUp4kExact (len : Nat) : Nat :=
  (len + 4095) / 4096 * 4096

theorem roundUp4k_eq_exact (len : Nat) (h : len + 4095 < U64_MOD) :
    roundUp4k len = roundUp4kExact len := by
  rw [roundUp4k, roundUp4kExact, Nat.mod_eq_of_lt h]
  omega

mutual
/-- `(inode_count, total_bytes)` contributed by one entry and its
descendants, in wrapping `u64` arithmetic: files add their rounded
length, directories 4 KiB, symlinks with targets over 60 bytes one data
block, everything else nothing; every entry adds one inode. Combining
per-subtree wrapped sums with [`wadd`] equals the source's linear
running `+=` accumulation, because addition modulo `2^64` is
associative and commutative. -/
def entryStats : FsEntry → Nat × Nat
  | .file len => (1, roundUp4k len)
  | .dir es =>
      let s := dirStats es
      (wadd 1 s.1, wadd 4096 s.2)
  | .symlink t => (1, if 60 < t then 4096 else 0)
  | .other => (1, 0)

/-- Wrapped stats summed over a listing. -/
def dirStats : FsDir → Nat × Nat
  | .nil => (0, 0)
  | .cons e rest =>
      let a := entryStats e
      let b := dirStats rest
      (wadd a.1 b.1, wadd a.2 b.2)
end

/-- `estimate_image_size(dir)`: the walk visits the entries of `dir`
(not `dir` itself), then in `u64` arithmetic
`raw = total_bytes + inode_count * 256`,
`sized = raw * 11 / 10 + 64 MiB`, result `max(sized, 256 MiB)`. -/
def estimate_image_size (root : FsDir) : Nat :=
  let s := dirStats root
  let raw := wadd s.2 (s.1 * 256 % U64_MOD)
  let sized := wadd (raw * 11 % U64_MOD / 10) (64 * 1024 * 1024)
  max sized (256 * 1024 * 1024)

mutual
/-- Every regular file length in the entry's subtree keeps
`len + 4095` below `2^64`, so no per-file rounding wraps. -/
def entryLensOk : FsEntry → Bool
  | .file len => decide (len + 4095 < U64_MOD)
  | .dir es => dirLensOk es
  | .symlink _ => true
  | .other => true

/-- [`entryLensOk`] over a listing. -/
def dirLensOk : FsDir → Bool
  | .nil => true
  | .cons e rest => entryLensOk e && dirLensOk rest
end

mutual
/-- The idealized walk in unbounded arithmetic: what the accumulation
computes when no `u64` operation wraps. Used to state the no-overflow
hypothesis under which it agrees with [`entryStats`]. -/
def entryStatsM : FsEntry → Nat × Nat
  | .file len => (1, roundUp4kExact len)
  | .dir es =>
      let s := dirStatsM es
      (1 + s.1, 4096 + s.2)
  | .symlink t => (1, if 60 < t then 4096 else 0)
  | .other => (1, 0)

/-- Idealized stats summed over a listing. -/
def dirStatsM : FsDir → Nat × Nat
  | .nil => (0, 0)
  | .cons e rest =>
      let a := entryStatsM e
      let b := dirStatsM rest
      (a.1 + b.1, a.2 + b.2)
end

mutual
/-- Sum over the regular files of an entry's subtree of their lengths
rounded up to 4 KiB, in exact arithmetic (the claim's comparison
value). -/
def fileBytesEntry : FsEntry → Nat
  | .file len => roundUp4kExact len
  | .dir es => fileBytesDir es
  | .symlink _ => 0
  | .other => 0

/-- Sum over the regular files of a listing. -/
def fileBytesDir : FsDir → Nat
  | .nil => 0
  | .cons e rest => fileBytesEntry e + fileBytesDir rest
end

mutual
theorem fileBytesEntry_le (e : FsEntry) : fileBytesEntry e ≤ (entryStatsM e).2 := by
  cases e with
  | file len => exact le_refl _
  | dir es =>
      have h := fileBytesDir_le es
      simp only [fileBytesEntry, entryStatsM]
      omega
  | symlink t => simp [fileBytesEntry]
  | other => simp [fileBytesEntry]

theorem fileBytesDir_le (d : FsDir) : fileBytesDir d ≤ (dirStatsM d).2 := by
  cases d with
  | nil => exact le_refl _
  | cons e rest =>
      have h1 := fileBytesEntry_le e
      have h2 := fileBytesDir_le rest
      simp only [fileBytesDir, dirStatsM]
      omega
end

mutual
/-- Below the overflow bounds the wrapped walk agrees with the
idealized one. -/
theorem entryStats_eq (e : FsEntry) (hl : entryLensOk e = true)
    (h1 : (entryStatsM e).1 < U64_MOD) (h2 : (entryStatsM e).2 < U64_MOD) :
    entryStats e = entryStatsM e := by
  cases e with
  | file len =>
      simp only [entryLensOk, decide_eq_true_eq] at hl
      simp only [entryStats, entryStatsM, roundUp4k_eq_exact len hl]
  | dir es =>
      simp only [entryLensOk] at hl
      simp only [entryStatsM] at h1 h2
      have hde := dirStats_eq es hl (by omega) (by omega)
      simp only [entryStats, entryStatsM, hde, wadd]
      rw [Nat.mod_eq_of_lt h1, Nat.mod_eq_of_lt h2]
  | symlink t => rfl
  | other => rfl

/-- [`entryStats_eq`] over a listing. -/
theorem dirStats_eq (d : FsDir) (hl : dirLensOk d = true)
    (h1 : (dirStatsM d).1 < U64_MOD) (h2 : (dirStatsM d).2 < U64_MOD) :
    dirStats d = dirStatsM d := by
  cases d with
  | nil => rfl
  | cons e rest =>
      simp only [dirLensOk, Bool.and_eq_true] at hl
      simp only [dirStatsM] at h1 h2
      have he := entryStats_eq e hl.1 (by omega) (by omega)
      have hr := dirStats_eq rest hl.2 (by omega) (by omega)
      simp only [dirStats, dirStatsM, he, hr, wadd]
      rw [Nat.mod_eq_of_lt h1, Nat.mod_eq_of_lt h2]
end

/--
C8 (counterexample): at a directory holding two 2^60-byte sparse files
the `u64` computation wraps — `raw * 11 ≈ 2.54·10^19 > 2^64` — and the
program returns about 6.9·10^17 bytes, strictly less than the
4-KiB-rounded file sum 2^61 ≈ 2.3·10^18, falsifying the claim's
strict-inequality conjunct at a non-empty tree.
-/
theorem C8_counterexample :
    (FsDir.cons (.file (2 ^ 60)) (.cons (.file (2 ^ 60)) .nil) ≠ .nil) ∧
    estimate_image_size (.cons (.file (2 ^ 60)) (.cons (.file (2 ^ 60)) .nil)) <
      fileBytesDir (.cons (.file (2 ^ 60)) (.cons (.file (2 ^ 60)) .nil)) := by
  exact ⟨by decide, by decide⟩

/--
C8 (amended): for every non-empty directory tree in which each regular
file's length keeps `len + 4095` below `2^64` (per-file rounding does
not wrap) and whose idealized totals satisfy
`(total_bytes + inode_count·256)·11 < 2^64` (the size computation does
not wrap), `estimate_image_size` returns at least 256 MiB and strictly
more than the sum over the tree's regular files of their lengths
rounded up to the next 4 KiB boundary. Outside these bounds the `u64`
arithmetic wraps and the bound can fail (see the counterexample).
-/
theorem C8_estimate_image_size (root : FsDir) (hne : root ≠ .nil)
    (hl : dirLensOk root = true)
    (hovf : ((dirStatsM root).2 + (dirStatsM root).1 * 256) * 11 < U64_MOD) :
    256 * 1024 * 1024 ≤ estimate_image_size root ∧
    fileBytesDir root < estimate_image_size root := by
  have hU : U64_MOD = 2 ^ 64 := rfl
  have h2 : (dirStatsM root).2 < U64_MOD := by omega
  have h1 : (dirStatsM root).1 < U64_MOD := by omega
  have heq : dirStats root = dirStatsM root := dirStats_eq root hl h1 h2
  have hfle : fileBytesDir root ≤ (dirStatsM root).2 := fileBytesDir_le root
  simp only [estimate_image_size, heq, wadd]
  refine ⟨le_max_right _ _, lt_of_lt_of_le ?_ (le_max_left _ _)⟩
  rw [hU] at hovf ⊢
  rw [Nat.mod_eq_of_lt (show (dirStatsM root).1 * 256 < 2 ^ 64 by omega)]
  rw [Nat.mod_eq_of_lt
    (show (dirStatsM root).2 + (dirStatsM root).1 * 256 < 2 ^ 64 by omega)]
  rw [Nat.mod_eq_of_lt hovf]
  rw [Nat.mod_eq_of_lt
    (show ((dirStatsM root).2 + (dirStatsM root).1 * 256) * 11 / 10 +
        64 * 1024 * 1024 < 2 ^ 64 by omega)]
  omega

/-- Witness for C8: a directory holding one 10-byte file. -/
theorem C8_estimate_image_size_witness :
    (FsDir.cons (.file 10) .nil ≠ .nil) ∧
    (dirLensOk (.cons (.file 10) .nil) = true) ∧
    (((dirStatsM (.cons (.file 10) .nil)).2 +
        (dirStatsM (.cons (.file 10) .nil)).1 * 256) * 11 < U64_MOD) ∧
    (256 * 1024 * 1024 ≤ estimate_image_size (.cons (.file 10) .nil) ∧
     fileBytesDir (.cons (.file 10) .nil) <
       estimate_image_size (.cons (.file 10) .nil)) :=
  ⟨by decide, by decide, by decide,
   C8_estimate_image_size (.cons (.file 10) .nil) (by decide) (by decide)
     (by decide)⟩

end BuxE2fs

namespace BuxOci

/-! ## OCI image store (`bux-oci/src/store.rs`, `bux-oci/src/lib.rs`)

The SQLite tables are modelled as association lists keyed by their
primary keys (`images.reference`, `layers.digest`, and the pair key of
`image_layers`); the blob store, config store and rootfs directories as
lists of present paths with set semantics (creation appends when absent,
deletion filters). `PRAGMA foreign_keys=ON` is modelled by explicit
checks where the schema declares a foreign key without a cascade
(`image_layers.layer_digest REFERENCES layers(digest)`): deleting a
still-referenced parent row fails the statement and rolls the
transaction back. Registry I/O is modelled by handing `pull` the
manifest data the registry client would return. -/

/-- A row of the `layers` table. `ref_count` is an SQLite `INTEGER`
(signed); the decrement in `remove_image` can drive it below zero. -/
structure LayerRow where
  /-- `media_type` column. -/
  media_type : String
  /-- `size` column. -/
  size : Nat
  /-- `ref_count` column (`DEFAULT 1`). -/
  ref_count : Int
deriving DecidableEq

/-- A row of the `images` table (sans `created`, which no claim uses). -/
structure ImageRow where
  /-- `digest` column: manifest digest. -/
  digest : String
  /-- `size` column. -/
  size : Nat
  /-- `config` column (nullable). -/
  config : Option String
deriving DecidableEq

/-- The store: database tables plus the on-disk trees under the root. -/
structure StoreState where
  /-- `images` table, keyed by `reference`. -/
  images : List (String × ImageRow)
  /-- `layers` table, keyed by `digest`. -/
  layers : List (String × LayerRow)
  /-- `image_layers` rows `(image_ref, layer_digest, position)`. -/
  image_layers : List (String × String × Nat)
  /-- Layer tarballs present at `layers/<digest>.tar.gz`. -/
  layerBlobs : List String
  /-- Staging files present at `layers/<digest>.tar.gz.tmp`. -/
  layerStaging : List String
  /-- Config blobs at `configs/<digest>.json`, with their contents. -/
  configBlobs : List (String × String)
  /-- Extracted rootfs directories `rootfs/<digest>/`. -/
  rootfsDirs : List String
  /-- Staging directories `rootfs/<digest>.tmp/`. -/
  rootfsStaging : List String
deriving DecidableEq

/-- `Store::open` on a fresh data directory. -/
def emptyStore : StoreState := ⟨[], [], [], [], [], [], [], []⟩

/-- Errors from store operations (`bux-oci`'s `Error`, collapsed to the
two families the model can produce). -/
inductive StoreErr where
  /-- `Error::Io`: a filesystem operation failed. -/
  | io
  /-- `Error::Db`: an SQLite statement failed (e.g. an FK violation). -/
  | db
deriving DecidableEq

/-- Association-list lookup by key (SQL `SELECT … WHERE pk = ?`). -/
def alookup (k : String) : List (String × α) → Option α
  | [] => none
  | (k', v) :: rest => if k = k' then some v else alookup k rest

/-- Insert-or-replace at a key (SQL upsert; keys stay unique). -/
def aupsert (k : String) (v : α) : List (String × α) → List (String × α)
  | [] => [(k, v)]
  | (k', v') :: rest =>
      if k = k' then (k, v) :: rest else (k', v') :: aupsert k v rest

/-- Delete the row at a key (SQL `DELETE … WHERE pk = ?`). -/
def aeraseKey (k : String) : List (String × α) → List (String × α)
  | [] => []
  | (k', v') :: rest => if k = k' then rest else (k', v') :: aeraseKey k rest

theorem alookup_aupsert (k : String) (v : α) (l : List (String × α)) :
    alookup k (aupsert k v l) = some v := by
  induction l with
  | nil => simp [aupsert, alookup]
  | cons hd tl ih =>
      obtain ⟨k', v'⟩ := hd
      by_cases h : k = k'
      · simp [aupsert, h, alookup]
      · simp only [aupsert, if_neg h, alookup, ih]

/-- Add a path to a present-set (create-if-absent semantics of a rename
onto the final location). -/
def addPath (p : String) (l : List String) : List String :=
  if p ∈ l then l else l ++ [p]

/-- Remove a path from a present-set (`remove_dir_all`/`remove_file`). -/
def removePath (p : String) (l : List String) : List String :=
  l.filter (fun x => x ≠ p)

theorem mem_addPath (p : String) (l : List String) : p ∈ addPath p l := by
  rw [addPath]
  by_cases h : p ∈ l
  · rwa [if_pos h]
  · rw [if_neg h]
    simp

theorem not_mem_removePath (p : String) (l : List String) :
    p ∉ removePath p l := by
  intro h
  rw [removePath, List.mem_filter] at h
  simp at h

theorem mem_removePath_ne (p q : String) (l : List String) (h : q ≠ p) :
    q ∈ removePath p l ↔ q ∈ l := by
  rw [removePath, List.mem_filter]
  simp [h]

/-! ### `Store` operations -/

/-- `Store::has_layer`: the blob file exists on disk. -/
def has_layer (st : StoreState) (digest : String) : Bool :=
  digest ∈ st.layerBlobs

/-- `Store::rootfs_complete`: the extracted rootfs directory exists. -/
def rootfs_complete (st : StoreState) (manifest_digest : String) : Bool :=
  manifest_digest ∈ st.rootfsDirs

/-- `Store::get_digest`: manifest digest cached for a reference. -/
def get_digest (st : StoreState) (reference : String) : Option String :=
  (alookup reference st.images).map (·.digest)

/-- `Store::commit_layer`: `fs::rename(staging, final)` — an error if the
staging file is absent — then
`INSERT INTO layers … ON CONFLICT(digest) DO UPDATE SET ref_count = ref_count + 1`. -/
def commit_layer (st : StoreState) (digest media_type : String) (size : Nat) :
    Except StoreErr StoreState :=
  if digest ∈ st.layerStaging then
    let st₁ := { st with
      layerStaging := removePath digest st.layerStaging,
      layerBlobs := addPath digest st.layerBlobs }
    match alookup digest st₁.layers with
    | some row =>
        let row' : LayerRow := { row with ref_count := row.ref_count + 1 }
        .ok { st₁ with layers := aupsert digest row' st₁.layers }
    | none =>
        .ok { st₁ with layers := st₁.layers ++ [(digest, ⟨media_type, size, 1⟩)] }
  else .error .io

/-- `Store::save_config`: atomic write, skipped when the blob exists. -/
def save_config (st : StoreState) (digest data : String) : StoreState :=
  match alookup digest st.configBlobs with
  | some _ => st
  | none => { st with configBlobs := st.configBlobs ++ [(digest, data)] }

/-- `Store::commit_rootfs`: if the final directory already exists,
discard the staging directory (ignoring errors) and succeed; otherwise
`fs::rename(staging, final)`, an error if the staging directory is
absent. -/
def commit_rootfs (st : StoreState) (manifest_digest : String) :
    Except StoreErr StoreState :=
  if manifest_digest ∈ st.rootfsDirs then
    .ok { st with rootfsStaging := removePath manifest_digest st.rootfsStaging }
  else if manifest_digest ∈ st.rootfsStaging then
    .ok { st with
      rootfsStaging := removePath manifest_digest st.rootfsStaging,
      rootfsDirs := st.rootfsDirs ++ [manifest_digest] }
  else .error .io

/-- `Store::upsert_image`, one transaction: upsert the `images` row
(overwriting on reference conflict), embedding the config JSON read back
from the blob store (`.ok()`, so `NULL` when absent); delete the old
`image_layers` rows for the reference; `INSERT OR IGNORE` the new rows
with positions from `enumerate()`. The `OR IGNORE` applies to the pair
primary key only — a `layer_digest` with no `layers` row still violates
the foreign key and fails the transaction. -/
def upsert_image (st : StoreState) (reference digest : String) (size : Nat)
    (config_digest : String) (layer_digests : List String) :
    Except StoreErr StoreState :=
  if layer_digests.all (fun ld => (alookup ld st.layers).isSome) then
    let config_json := alookup config_digest st.configBlobs
    let images' := aupsert reference ⟨digest, size, config_json⟩ st.images
    let cleared := st.image_layers.filter (fun r => r.1 ≠ reference)
    let rows := layer_digests.enum.foldl
      (fun acc (p : Nat × String) =>
        if acc.any (fun r => r.1 = reference ∧ r.2.1 = p.2) then acc
        else acc ++ [(reference, p.2, p.1)])
      cleared
    .ok { st with images := images', image_layers := rows }
  else .error .db

/-- The orphan-deletion loop of `Store::remove_image`: for each layer
with `ref_count ≤ 0`, `DELETE FROM layers WHERE digest = ?` — which
fails the foreign-key check if an `image_layers` row still references
it, aborting the transaction — then unlink its blob file. -/
def deleteOrphans (remainingRows : List (String × String × Nat)) :
    List String → List (String × LayerRow) → List String →
    Except StoreErr (List (String × LayerRow) × List String)
  | [], layers, blobs => .ok (layers, blobs)
  | o :: rest, layers, blobs =>
      if remainingRows.any (fun r => r.2.1 = o) then .error .db
      else deleteOrphans remainingRows rest (aeraseKey o layers) (removePath o blobs)

/-- `Store::remove_image`: look up the digest; in one transaction
decrement `ref_count` for the reference's layers, delete the `images`
row (cascading its `image_layers` rows), delete orphaned layers and
unlink their blobs; then, after commit, remove the rootfs directory if
present. A failed statement rolls the transaction back and the error
propagates. -/
def remove_image (st : StoreState) (reference : String) :
    Except StoreErr StoreState :=
  let digest := get_digest st reference
  let layer_digests :=
    (st.image_layers.filter (fun r => r.1 = reference)).map (fun r => r.2.1)
  let layers₁ := layer_digests.foldl
    (fun acc ld => acc.map (fun (kr : String × LayerRow) =>
      if kr.1 = ld then (kr.1, { kr.2 with ref_count := kr.2.ref_count - 1 })
      else kr))
    st.layers
  let images' := aeraseKey reference st.images
  let remainingRows := st.image_layers.filter (fun r => r.1 ≠ reference)
  let orphans := (layers₁.filter (fun kr => kr.2.ref_count ≤ 0)).map (·.1)
  match deleteOrphans remainingRows orphans layers₁ st.layerBlobs with
  | .error e => .error e
  | .ok (layers₂, blobs₂) =>
      let st' := { st with
        images := images', image_layers := remainingRows,
        layers := layers₂, layerBlobs := blobs₂ }
      .ok (match digest with
        | some d => { st' with rootfsDirs := removePath d st'.rootfsDirs }
        | none => st')

/-! ### `Oci` operations (`bux-oci/src/lib.rs`)

The registry client is a pure oracle here: `pull` receives the
`(manifest, manifest_digest, config_json)` triple that
`pull_manifest_and_config` would return, and blob downloads always
deliver their bytes. References are taken already canonical
(`parse_reference` + `Reference::to_string`). -/

/-- One layer descriptor of a manifest. -/
structure LayerDesc where
  /-- Layer content digest. -/
  digest : String
  /-- `media_type` of the layer. -/
  media_type : String
  /-- Compressed size in bytes. -/
  size : Nat
deriving DecidableEq

/-- What the registry returns for a reference: the manifest digest, the
ordered layer list, and the config blob with its digest. -/
structure Manifest where
  /-- Manifest content digest (keys the extracted rootfs). -/
  digest : String
  /-- Layers in manifest order. -/
  layers : List LayerDesc
  /-- Digest of the config blob. -/
  config_digest : String
  /-- The config JSON contents. -/
  config_json : String
deriving DecidableEq

/-- Result of a successful pull (`PullResult`): the canonical reference
and the manifest digest, which determines the rootfs path
`rootfs/<digest>/`. The parsed `ImageConfig` is outside this model. -/
structure PullResult where
  /-- Canonical image reference string. -/
  reference : String
  /-- Manifest content digest. -/
  digest : String
deriving DecidableEq

/-- Step 2 of `Oci::pull` for one layer: skip when the blob file exists;
otherwise create the staging file, stream the blob into it, and
`commit_layer`. -/
def pullLayer (st : StoreState) (l : LayerDesc) : Except StoreErr StoreState :=
  if has_layer st l.digest then .ok st
  else
    commit_layer { st with layerStaging := addPath l.digest st.layerStaging }
      l.digest l.media_type l.size

/-- Step 2 of `Oci::pull` over the manifest's layers, in order. -/
def pullLayers (st : StoreState) : List LayerDesc → Except StoreErr StoreState
  | [] => .ok st
  | l :: rest =>
      match pullLayer st l with
      | .ok st' => pullLayers st' rest
      | .error e => .error e

/-- Step 4 of `Oci::pull`: when no complete rootfs exists, remove any
stale staging directory, extract the layers into a fresh staging
directory, and `commit_rootfs`. -/
def extractRootfs (st : StoreState) (manifest_digest : String) :
    Except StoreErr StoreState :=
  if rootfs_complete st manifest_digest then .ok st
  else
    commit_rootfs
      { st with rootfsStaging :=
          addPath manifest_digest (removePath manifest_digest st.rootfsStaging) }
      manifest_digest

/-- `Oci::pull`: cache the layers, save the config blob, extract the
rootfs if needed, then update the SQLite index; returns the new store
state and the `PullResult`. -/
def pull (st : StoreState) (reference : String) (m : Manifest) :
    Except StoreErr (StoreState × PullResult) :=
  match pullLayers st m.layers with
  | .error e => .error e
  | .ok st₁ =>
      let total_size := (m.layers.map (·.size)).sum
      let st₂ := save_config st₁ m.config_digest m.config_json
      match extractRootfs st₂ m.digest with
      | .error e => .error e
      | .ok st₃ =>
          match upsert_image st₃ reference m.digest total_size m.config_digest
              (m.layers.map (·.digest)) with
          | .error e => .error e
          | .ok st₄ => .ok (st₄, ⟨reference, m.digest⟩)

/-- `Oci::ensure`: if the reference has a cached digest whose rootfs is
complete, return the cached result without touching the registry;
otherwise fall through to `pull`. The boolean records whether the
registry was used. -/
def ensure (st : StoreState) (reference : String) (m : Manifest) :
    Except StoreErr (StoreState × PullResult × Bool) :=
  match get_digest st reference with
  | some d =>
      if rootfs_complete st d then .ok (st, ⟨reference, d⟩, false)
      else
        match pull st reference m with
        | .ok (st', res) => .ok (st', res, true)
        | .error e => .error e
  | none =>
      match pull st reference m with
      | .ok (st', res) => .ok (st', res, true)
      | .error e => .error e

/-- Rows of `image_layers` carrying a given layer digest. -/
def countImageLayers (st : StoreState) (layer_digest : String) : Nat :=
  (st.image_layers.filter (fun r => r.2.1 = layer_digest)).length

/-- `ref_count` stored for a layer digest, when the row exists. -/
def refCount (st : StoreState) (layer_digest : String) : Option Int :=
  (alookup layer_digest st.layers).map (·.ref_count)

/-! ### Claims about the store -/

/-- A one-layer manifest for the image at `reg/a:latest`. -/
def manifestA : Manifest :=
  ⟨"sha256:aaaa", [⟨"sha256:l1", "application/gzip", 5⟩], "sha256:ca", "cfgA"⟩

/-- A one-layer manifest for `reg/b:latest` reusing layer `sha256:l1`. -/
def manifestB : Manifest :=
  ⟨"sha256:bbbb", [⟨"sha256:l1", "application/gzip", 5⟩], "sha256:cb", "cfgB"⟩

/-- A zero-layer manifest pulled under two different references. -/
def manifestD : Manifest :=
  ⟨"sha256:dddd", [], "sha256:cd", "cfgD"⟩

/--
C1 (the code evaluated at the failing input): pulling `reg/a:latest`
and then `reg/b:latest`, whose manifests share layer `sha256:l1`,
leaves two `image_layers` rows for that digest but `ref_count = 1` —
the second pull finds the blob on disk and skips `commit_layer`, the
only place the `ON CONFLICT … ref_count + 1` upsert lives, so the
claimed invariant `|rows| = ref_count` is broken and the re-use did not
increment the count.
-/
theorem C1_refcount_bug :
    (do
      let (s1, _) ← pull emptyStore "reg/a:latest" manifestA
      let (s2, _) ← pull s1 "reg/b:latest" manifestB
      pure (countImageLayers s2 "sha256:l1", refCount s2 "sha256:l1")) =
    Except.ok (2, some 1) := by decide

/--
C3 (counterexample): `reg/a:latest` and `reg/b:latest` are pulled with
the same manifest (digest `sha256:dddd`); `remove("reg/a:latest")`
completes successfully and deletes the rootfs directory for
`sha256:dddd` even though the `images` row for `reg/b:latest` still
references that digest — the claim said the directory would be left in
place.
-/
theorem C3_counterexample :
    (do
      let (s1, _) ← pull emptyStore "reg/a:latest" manifestD
      let (s2, _) ← pull s1 "reg/b:latest" manifestD
      let s3 ← remove_image s2 "reg/a:latest"
      pure (decide ("sha256:dddd" ∈ s2.rootfsDirs),
            decide ("sha256:dddd" ∈ s3.rootfsDirs),
            get_digest s3 "reg/b:latest")) =
    Except.ok (true, false, some "sha256:dddd") := by decide

/--
C3 (amended): when `remove(ref)` completes successfully and the removed
reference had a cached digest `d`, the rootfs directory for `d` is
removed unconditionally — whether or not other image rows still
reference `d` — while rootfs directories of other digests are left in
place.
-/
theorem C3_remove_rootfs (st : StoreState) (ref d : String) (st' : StoreState)
    (hd : get_digest st ref = some d)
    (h : remove_image st ref = .ok st') :
    d ∉ st'.rootfsDirs ∧
    ∀ d', d' ≠ d → (d' ∈ st'.rootfsDirs ↔ d' ∈ st.rootfsDirs) := by
  simp only [remove_image, hd] at h
  split at h
  · cases h
  · cases h
    exact ⟨not_mem_removePath d st.rootfsDirs,
           fun d' hne => mem_removePath_ne d d' st.rootfsDirs hne⟩

/-- A cached store holding two unrelated images (`reg/a:latest` with
digest `sha256:x`, `reg/c:1` with digest `sha256:y`), both extracted. -/
def c3Store : StoreState :=
  ⟨[("reg/a:latest", ⟨"sha256:x", 0, none⟩), ("reg/c:1", ⟨"sha256:y", 0, none⟩)],
   [], [], [], [], [], ["sha256:x", "sha256:y"], []⟩

/-- [`c3Store`] after `remove("reg/a:latest")`. -/
def c3Removed : StoreState :=
  ⟨[("reg/c:1", ⟨"sha256:y", 0, none⟩)], [], [], [], [], [], ["sha256:y"], []⟩

/-- Witness for C3 (amended): removing `reg/a:latest` from [`c3Store`]
succeeds and its rootfs directory is gone from the result. -/
theorem C3_remove_rootfs_witness : "sha256:x" ∉ c3Removed.rootfsDirs :=
  (C3_remove_rootfs c3Store "reg/a:latest" "sha256:x" c3Removed
    (by decide) (by decide)).1

/-- A successful `upsert_image` records the new digest for the reference
and leaves the rootfs directories untouched. -/
theorem upsert_image_ok (st : StoreState) (ref dg : String) (sz : Nat)
    (cd : String) (lds : List String) (st' : StoreState)
    (h : upsert_image st ref dg sz cd lds = .ok st') :
    get_digest st' ref = some dg ∧ st'.rootfsDirs = st.rootfsDirs := by
  simp only [upsert_image] at h
  split at h
  · cases h
    refine ⟨?_, rfl⟩
    simp [get_digest, alookup_aupsert]
  · cases h

/-- A successful `extractRootfs` leaves the rootfs directory for the
digest present. -/
theorem extractRootfs_ok (st : StoreState) (d : String) (st' : StoreState)
    (h : extractRootfs st d = .ok st') : d ∈ st'.rootfsDirs := by
  simp only [extractRootfs] at h
  split at h
  · next hc =>
      cases h
      rw [rootfs_complete] at hc
      exact of_decide_eq_true hc
  · simp only [commit_rootfs] at h
    split at h
    · next hc =>
        cases h
        exact hc
    · split at h
      · cases h
        exact List.mem_append_right _ (by simp)
      · cases h

/--
C7: if `pull(r)` completes successfully, then `ensure(r)` on the
resulting store returns the cached result — the same store state, the
reference with the pulled manifest digest, and `false` for "registry
used", i.e. no network operation — and the rootfs directory keyed by
that digest exists in the store.
-/
theorem C7_ensure_cached (st : StoreState) (ref : String) (m : Manifest)
    (st' : StoreState) (res : PullResult)
    (h : pull st ref m = .ok (st', res)) :
    ensure st' ref m = .ok (st', ⟨ref, m.digest⟩, false) ∧
    res = ⟨ref, m.digest⟩ ∧
    m.digest ∈ st'.rootfsDirs := by
  simp only [pull] at h
  split at h
  next e hpl => cases h
  next st₁ hpl =>
    split at h
    next e hex => cases h
    next st₃ hex =>
      split at h
      next e hup => cases h
      next st₄ hup =>
        injection h with h1
        injection h1 with h2 h3
        subst h2
        subst h3
        obtain ⟨hdig, hdirs⟩ := upsert_image_ok _ _ _ _ _ _ _ hup
        have hmem : m.digest ∈ st₄.rootfsDirs := by
          rw [hdirs]
          exact extractRootfs_ok _ _ _ hex
        refine ⟨?_, rfl, hmem⟩
        simp only [ensure, hdig]
        simp [rootfs_complete, hmem]

/-- The store produced by `pull emptyStore "reg/a:latest" manifestA`. -/
def c7Pulled : StoreState :=
  ⟨[("reg/a:latest", ⟨"sha256:aaaa", 5, some "cfgA"⟩)],
   [("sha256:l1", ⟨"application/gzip", 5, 1⟩)],
   [("reg/a:latest", "sha256:l1", 0)],
   ["sha256:l1"], [], [("sha256:ca", "cfgA")], ["sha256:aaaa"], []⟩

/-- Witness for C7: after concretely pulling `manifestA` into an empty
store, `ensure` returns the cached result without the registry. -/
theorem C7_ensure_cached_witness :
    ensure c7Pulled "reg/a:latest" manifestA =
      .ok (c7Pulled, ⟨"reg/a:latest", manifestA.digest⟩, false) ∧
    (⟨"reg/a:latest", "sha256:aaaa"⟩ : PullResult) =
      ⟨"reg/a:latest", manifestA.digest⟩ ∧
    manifestA.digest ∈ c7Pulled.rootfsDirs :=
  C7_ensure_cached emptyStore "reg/a:latest" manifestA c7Pulled
    ⟨"reg/a:latest", "sha256:aaaa"⟩ (by decide)

/--
C10: if the final rootfs directory for a manifest digest already
exists when `commit_rootfs` is called, it removes the staging directory
(ignoring removal errors — removal is a no-op when the staging
directory is absent) and returns `Ok` with the existing rootfs
directories unchanged; otherwise, when the staging directory is
present, it renames the staging directory into the final path.
-/
theorem C10_commit_rootfs (st : StoreState) (d : String) :
    (d ∈ st.rootfsDirs →
       commit_rootfs st d =
         .ok { st with rootfsStaging := removePath d st.rootfsStaging }) ∧
    (d ∉ st.rootfsDirs → d ∈ st.rootfsStaging →
       commit_rootfs st d =
         .ok { st with rootfsStaging := removePath d st.rootfsStaging,
                       rootfsDirs := st.rootfsDirs ++ [d] }) := by
  constructor
  · intro hm
    rw [commit_rootfs, if_pos hm]
  · intro hn hs
    rw [commit_rootfs, if_neg hn, if_pos hs]

/-- Witness for C10: both branches on concrete stores — a completed
extraction with a leftover staging directory, and a fresh staging
directory with no final directory. -/
theorem C10_commit_rootfs_witness :
    commit_rootfs (⟨[], [], [], [], [], [], ["sha256:z"], ["sha256:z"]⟩ : StoreState)
        "sha256:z" =
      .ok { (⟨[], [], [], [], [], [], ["sha256:z"], ["sha256:z"]⟩ : StoreState) with
            rootfsStaging := removePath "sha256:z" ["sha256:z"] } ∧
    commit_rootfs (⟨[], [], [], [], [], [], [], ["sha256:w"]⟩ : StoreState)
        "sha256:w" =
      .ok { (⟨[], [], [], [], [], [], [], ["sha256:w"]⟩ : StoreState) with
            rootfsStaging := removePath "sha256:w" ["sha256:w"],
            rootfsDirs := [] ++ ["sha256:w"] } :=
  ⟨(C10_commit_rootfs ⟨[], [], [], [], [], [], ["sha256:z"], ["sha256:z"]⟩
      "sha256:z").1 (by decide),
   (C10_commit_rootfs ⟨[], [], [], [], [], [], [], ["sha256:w"]⟩
      "sha256:w").2 (by decide) (by decide)⟩

end BuxOci
